import Mathlib

/-!
# The provisioning script `mongo-init.js`

The script is a straight-line sequence of shell statements: five `print`
statements and twenty-four database calls (`createUser`, `getSiblingDB`,
`createCollection`, `createIndex`).  It contains no branch, no loop and no
`try`/`catch`, so an exception thrown by a call ends the script there.

* `Stmt`, `Call`, `script` transcribe the source line by line.
* `exec` / `run` is the shell: it runs the statements in order against an
  arbitrary database engine `eng`, keeps the `db` handle, and stops at the
  first call that throws.
* `mongo` is a model of the database server the script talks to (an external
  collaborator, not part of the script): users, collections, secondary
  indexes and documents.  In this model the creation of an existing user or
  collection throws; the script does not determine that answer.
-/

namespace MongoInit

/-! ## Syntax of the script -/

/-- A role grant, the object with fields role and db passed to createUser. -/
structure Role where
  role : String
  db : String
  deriving DecidableEq, Repr

/-- The database calls that occur in the script.  The handle a call is made on
is the shell variable db at that moment and is supplied by the interpreter. -/
inductive Call where
  | createUser (user pwd : String) (roles : List Role)
  | getSiblingDB (name : String)
  | createCollection (name : String)
  | createIndex (coll : String) (keys : List (String × Int)) (unique : Bool)
  deriving DecidableEq, Repr

/-- A top-level statement of the script. -/
inductive Stmt where
  | print (msg : String)
  | call (c : Call)
  deriving DecidableEq, Repr

/-- The statements of mongo-init.js, in source order (lines 1 to 54).
An index call without an options object has unique = false. -/
def script : List Stmt :=
  [ .print "شروع اسکریپت راه‌اندازی MongoDB",
    .call (.createUser "eyeglass_admin" "secure_password123"
      [ ⟨"readWrite", "eyeglass_recommendation"⟩,
        ⟨"dbAdmin", "eyeglass_recommendation"⟩ ]),
    .print "کاربر eyeglass_admin با موفقیت ایجاد شد",
    .call (.getSiblingDB "eyeglass_recommendation"),
    .call (.createCollection "requests"),
    .call (.createCollection "analysis_results"),
    .call (.createCollection "recommendations"),
    .call (.createCollection "woocommerce_cache"),
    .print "کالکشن‌های مورد نیاز ایجاد شدند",
    .call (.createIndex "requests" [("request_id", 1)] true),
    .call (.createIndex "requests" [("created_at", 1)] false),
    .call (.createIndex "requests" [("client_info.device_type", 1)] false),
    .call (.createIndex "requests" [("client_info.browser_name", 1)] false),
    .call (.createIndex "requests" [("client_info.os_name", 1)] false),
    .call (.createIndex "requests" [("status_code", 1)] false),
    .call (.createIndex "analysis_results" [("user_id", 1)] false),
    .call (.createIndex "analysis_results" [("request_id", 1)] false),
    .call (.createIndex "analysis_results" [("face_shape", 1)] false),
    .call (.createIndex "analysis_results" [("created_at", 1)] false),
    .call (.createIndex "analysis_results" [("confidence", -1)] false),
    .call (.createIndex "recommendations" [("user_id", 1)] false),
    .call (.createIndex "recommendations" [("face_shape", 1)] false),
    .call (.createIndex "recommendations" [("analysis_id", 1)] false),
    .call (.createIndex "recommendations" [("created_at", 1)] false),
    .call (.createIndex "recommendations" [("recommended_frames.match_score", -1)] false),
    .call (.createIndex "woocommerce_cache" [("type", 1)] true),
    .call (.createIndex "woocommerce_cache" [("last_update", 1)] false),
    .print "ایندکس‌های مورد نیاز ایجاد شدند",
    .print "راه‌اندازی MongoDB با موفقیت به پایان رسید" ]

/-! ## The shell: sequential execution, abort on the first exception -/

/-- What a run of the shell leaves behind: the server state, the value of the
shell variable db, the printed lines, the calls that were issued (each with
the handle it was made on) and the uncaught error, if any. -/
structure Outcome (σ ε : Type) where
  server : σ
  db : String
  out : List String
  issued : List (String × Call)
  error : Option ε

/-- The handle after a successful call: only the assignment
db = db.getSiblingDB(name) changes it. -/
def nextDb (h : String) : Call → String
  | .getSiblingDB n => n
  | _ => h

/-- Run statements in order.  A call is sent to the engine on the current
handle; when the engine throws, nothing catches it and the rest is skipped. -/
def exec {σ ε : Type} (eng : String → Call → σ → Except ε σ) :
    List Stmt → Outcome σ ε → Outcome σ ε
  | [], o => o
  | .print m :: rest, o => exec eng rest { o with out := o.out ++ [m] }
  | .call c :: rest, o =>
    match eng o.db c o.server with
    | .error e => { o with issued := o.issued ++ [(o.db, c)], error := some e }
    | .ok s => exec eng rest
        { o with server := s, db := nextDb o.db c, issued := o.issued ++ [(o.db, c)] }

/-- One run of the script by a fresh shell whose db is the ambient database. -/
def run {σ ε : Type} (eng : String → Call → σ → Except ε σ) (ambient : String) (s : σ) :
    Outcome σ ε :=
  exec eng script ⟨s, ambient, [], [], none⟩

/-- The calls a statement list issues when none fails, each with its handle. -/
def callsFrom (h : String) : List Stmt → List (String × Call)
  | [] => []
  | .print _ :: rest => callsFrom h rest
  | .call c :: rest => (h, c) :: callsFrom (nextDb h c) rest

/-- Apply calls one after the other, stopping at the first error. -/
def applyAll {σ ε : Type} (eng : String → Call → σ → Except ε σ) :
    List (String × Call) → σ → Except ε σ
  | [], s => .ok s
  | (h, c) :: rest, s =>
    match eng h c s with
    | .error e => .error e
    | .ok s1 => applyAll eng rest s1

/-! ## A model of the database server -/

/-- Errors the server reports. -/
inductive MongoError where
  | duplicateUser
  | namespaceExists
  | indexOptionsConflict
  | duplicateKey
  deriving DecidableEq, Repr

/-- A field value of a document. -/
inductive Value where
  | int (n : Int)
  | str (s : String)
  deriving DecidableEq, Repr

/-- A document: field paths with their values. -/
abbrev Document := List (String × Value)

/-- A secondary index: key pattern (field, direction) and uniqueness flag. -/
structure Index where
  keys : List (String × Int)
  unique : Bool
  deriving DecidableEq, Repr

/-- A collection with its secondary indexes and documents. -/
structure Collection where
  name : String
  indexes : List Index
  docs : List Document
  deriving DecidableEq, Repr

/-- A database is the list of its collections, in creation order. -/
abbrev Database := List Collection

/-- A principal as stored by createUser. -/
structure User where
  user : String
  pwd : String
  roles : List Role
  deriving DecidableEq, Repr

/-- Server state: the principals, each with the database it was created in,
and the databases by name (a database never touched has no collections). -/
structure Server where
  users : List (String × User)
  dbs : String → Database

/-- A server with no principal and no collection in any database. -/
def emptyServer : Server := ⟨[], fun _ => []⟩

/-- The key value an index with the given key pattern holds for a document;
a missing field is indexed as absent. -/
def keyOf (keys : List (String × Int)) (d : Document) : List (Option Value) :=
  keys.map (fun k => d.lookup k.1)

/-- Some two of the documents have the same key value. -/
def hasDuplicateKey (keys : List (String × Int)) (docs : List Document) : Bool :=
  !decide ((docs.map (keyOf keys)).Nodup)

/-- Whether the database has a collection of that name. -/
def hasCollection (D : Database) (n : String) : Bool :=
  D.any (fun c => c.name == n)

/-- Explicit collection creation.  A new name adds an empty collection.  For
a name that exists already this model lets the call throw; the script itself
neither tests for existence nor inspects what the call returns, so this
answer is an assumption about the server and shell, not something the script
fixes.  It is never exercised on a target database without collections. -/
def dbCreateCollection (n : String) (D : Database) : Except MongoError Database :=
  if hasCollection D n then .error .namespaceExists else .ok (D ++ [⟨n, [], []⟩])

/-- Index creation on one collection: an index with the same key pattern and
the same options is left as it is, one with other options is a conflict, and
a new unique index cannot be built over documents with equal keys. -/
def collCreateIndex (keys : List (String × Int)) (unique : Bool) (c : Collection) :
    Except MongoError Collection :=
  match c.indexes.find? (fun i => i.keys == keys) with
  | some i => if i.unique = unique then .ok c else .error .indexOptionsConflict
  | none =>
    if unique && hasDuplicateKey keys c.docs then .error .duplicateKey
    else .ok { c with indexes := c.indexes ++ [⟨keys, unique⟩] }

/-- Apply an operation to the collection of the given name. -/
def modifyColl (n : String) (f : Collection → Except MongoError Collection) :
    Database → Except MongoError Database
  | [] => .ok []
  | c :: rest =>
    if c.name = n then
      match f c with
      | .error e => .error e
      | .ok c1 => .ok (c1 :: rest)
    else
      match modifyColl n f rest with
      | .error e => .error e
      | .ok rest1 => .ok (c :: rest1)

/-- The database with the named collection present, creating it empty when it
is missing (what the server does for a write to an unknown collection). -/
def ensureCollection (n : String) (D : Database) : Database :=
  if hasCollection D n then D else D ++ [⟨n, [], []⟩]

/-- Index creation on a database. -/
def dbCreateIndex (coll : String) (keys : List (String × Int)) (unique : Bool)
    (D : Database) : Except MongoError Database :=
  modifyColl coll (collCreateIndex keys unique) (ensureCollection coll D)

/-- Insert into one collection: rejected iff some unique index of the
collection already holds the key value of the document. -/
def collInsert (d : Document) (c : Collection) : Except MongoError Collection :=
  if c.indexes.any (fun i => i.unique && c.docs.any (fun e => keyOf i.keys e == keyOf i.keys d))
  then .error .duplicateKey
  else .ok { c with docs := c.docs ++ [d] }

/-- Insert a document into a collection of a database. -/
def dbInsert (coll : String) (d : Document) (D : Database) : Except MongoError Database :=
  modifyColl coll (collInsert d) (ensureCollection coll D)

/-- Run a database-local operation on the database the handle names. -/
def onDb (h : String) (f : Database → Except MongoError Database) (s : Server) :
    Except MongoError Server :=
  match f (s.dbs h) with
  | .error e => .error e
  | .ok D => .ok { s with dbs := Function.update s.dbs h D }

/-- The server's answer to a call made on handle h. -/
def mongo (h : String) : Call → Server → Except MongoError Server
  | .createUser u p rs, s =>
    if s.users.any (fun x => x.1 == h && x.2.user == u) then .error .duplicateUser
    else .ok { s with users := s.users ++ [(h, ⟨u, p, rs⟩)] }
  | .getSiblingDB _, s => .ok s
  | .createCollection n, s => onDb h (dbCreateCollection n) s
  | .createIndex c k u, s => onDb h (dbCreateIndex c k u) s

/-- Insert a document through handle h. -/
def insert (h coll : String) (d : Document) (s : Server) : Except MongoError Server :=
  onDb h (dbInsert coll d) s

/-- The database the script provisions. -/
def target : String := "eyeglass_recommendation"

/-- The four collections the script declares, in source order. -/
def declaredCollections : List String :=
  ["requests", "analysis_results", "recommendations", "woocommerce_cache"]

/-- The part of a call that acts on the database the handle names. -/
def dbStep : Call → Database → Except MongoError Database
  | .createCollection n, D => dbCreateCollection n D
  | .createIndex c k u, D => dbCreateIndex c k u D
  | _, D => .ok D

/-- Apply database-local calls in order, stopping at the first error. -/
def applyDb : List Call → Database → Except MongoError Database
  | [], D => .ok D
  | c :: rest, D =>
    match dbStep c D with
    | .error e => .error e
    | .ok D1 => applyDb rest D1

/-- The principal the script creates. -/
def adminUser : User :=
  ⟨"eyeglass_admin", "secure_password123",
    [⟨"readWrite", "eyeglass_recommendation"⟩, ⟨"dbAdmin", "eyeglass_recommendation"⟩]⟩

/-- The createUser call of the script (lines 4 to 11). -/
def createAdmin : Call :=
  .createUser adminUser.user adminUser.pwd adminUser.roles

/-- The calls of the script after the context switch, in order. -/
def dataCalls : List Call :=
  ((callsFrom "" script).drop 2).map Prod.snd

/-- The names of the collections of a database, in creation order. -/
def collNames (D : Database) : List String :=
  D.map (fun c => c.name)

/-- The secondary indexes of a database, each with its collection. -/
def indexesOf (D : Database) : List (String × Index) :=
  D.flatMap (fun c => c.indexes.map (fun i => (c.name, i)))

/-! ## Auxiliary definitions: call kinds, expected states, the index table -/

/-- Whether a call is a createUser call. -/
def isCreateUser : Call → Bool
  | .createUser _ _ _ => true
  | _ => false

/-- Whether the server already has the principal in the database of handle h. -/
def userExists (h u : String) (s : Server) : Bool :=
  s.users.any (fun x => x.1 == h && x.2.user == u)

/-- The target database after the data calls ran on a database without
collections. -/
def finalDb : Database :=
  [ ⟨"requests",
      [ ⟨[("request_id", 1)], true⟩, ⟨[("created_at", 1)], false⟩,
        ⟨[("client_info.device_type", 1)], false⟩,
        ⟨[("client_info.browser_name", 1)], false⟩,
        ⟨[("client_info.os_name", 1)], false⟩, ⟨[("status_code", 1)], false⟩ ], []⟩,
    ⟨"analysis_results",
      [ ⟨[("user_id", 1)], false⟩, ⟨[("request_id", 1)], false⟩,
        ⟨[("face_shape", 1)], false⟩, ⟨[("created_at", 1)], false⟩,
        ⟨[("confidence", -1)], false⟩ ], []⟩,
    ⟨"recommendations",
      [ ⟨[("user_id", 1)], false⟩, ⟨[("face_shape", 1)], false⟩,
        ⟨[("analysis_id", 1)], false⟩, ⟨[("created_at", 1)], false⟩,
        ⟨[("recommended_frames.match_score", -1)], false⟩ ], []⟩,
    ⟨"woocommerce_cache", [ ⟨[("type", 1)], true⟩, ⟨[("last_update", 1)], false⟩ ], []⟩ ]

/-- One row of the index table of the specification (section 4.1). -/
structure IndexRow where
  coll : String
  field : String
  dir : Int
  unique : Bool
  deriving DecidableEq, Repr

/-- The index table as the specification words it, row by row
(asc is 1, desc is -1). -/
def indexTable : List IndexRow :=
  [ ⟨"requests", "request_id", 1, true⟩,
    ⟨"requests", "created_at", 1, false⟩,
    ⟨"requests", "client_info.device_type", 1, false⟩,
    ⟨"requests", "client_info.browser_name", 1, false⟩,
    ⟨"requests", "client_info.os_name", 1, false⟩,
    ⟨"requests", "status_code", 1, false⟩,
    ⟨"analysis_results", "user_id", 1, false⟩,
    ⟨"analysis_results", "request_id", 1, false⟩,
    ⟨"analysis_results", "face_shape", 1, false⟩,
    ⟨"analysis_results", "created_at", 1, false⟩,
    ⟨"analysis_results", "confidence", -1, false⟩,
    ⟨"recommendations", "user_id", 1, false⟩,
    ⟨"recommendations", "face_shape", 1, false⟩,
    ⟨"recommendations", "analysis_id", 1, false⟩,
    ⟨"recommendations", "created_at", 1, false⟩,
    ⟨"recommendations", "recommended_frames.match_score", -1, false⟩,
    ⟨"woocommerce_cache", "type", 1, true⟩,
    ⟨"woocommerce_cache", "last_update", 1, false⟩ ]

/-- The single-field index a table row describes, with its collection. -/
def rowIndex (r : IndexRow) : String × Index :=
  (r.coll, ⟨[(r.field, r.dir)], r.unique⟩)

/-- The documents of the named collection of a database. -/
def docsOf (D : Database) (n : String) : List Document :=
  (D.filter (fun c => c.name == n)).flatMap (fun c => c.docs)

/-- Whether a call is the context switch getSiblingDB. -/
def isGetSiblingDB : Call → Bool
  | .getSiblingDB _ => true
  | _ => false

/-- Whether a call is a createCollection call. -/
def isCreateCollection : Call → Bool
  | .createCollection _ => true
  | _ => false

/-- Whether a call is a createIndex call. -/
def isCreateIndex : Call → Bool
  | .createIndex _ _ _ => true
  | _ => false

/-- The database calls of the script without their handles, in order. -/
def scriptCalls : List Call :=
  (callsFrom "" script).map Prod.snd

/-- A server whose target database already has the collection
recommendations, so that the third createCollection call of the script is
the first call to fail. -/
def recommendationsOnly : Server :=
  ⟨[], fun d => if d = "eyeglass_recommendation" then [⟨"recommendations", [], []⟩] else []⟩

/-- The collection a createIndex call is made on. -/
def indexTarget : Call → Option String
  | .createIndex c _ _ => some c
  | _ => none

/-- The collection a createCollection call names. -/
def collectionTarget : Call → Option String
  | .createCollection n => some n
  | _ => none

/-- The effect of a successful call on the collection names of its database:
createCollection adds the name, createIndex adds it only when it is missing. -/
def namesStep (L : List String) : Call → List String
  | .createCollection n => L ++ [n]
  | .createIndex n _ _ => if n ∈ L then L else L ++ [n]
  | _ => L

/-- Check that every createIndex call in the list targets a declared
collection whose createCollection call is among the calls seen before it. -/
def indexesFollowCollections : List Call → List Call → Bool
  | _, [] => true
  | seen, c :: rest =>
    (match indexTarget c with
      | some n => decide (n ∈ declaredCollections) && decide (Call.createCollection n ∈ seen)
      | none => true) && indexesFollowCollections (seen ++ [c]) rest

/-! ## The shell against an arbitrary engine -/

section Shell

variable {σ ε : Type} (eng : String → Call → σ → Except ε σ)

/-- When every call succeeds, the run ends without error in the state the
calls produce one after the other, and exactly those calls were issued. -/
theorem exec_of_applyAll_ok (stmts : List Stmt) (o : Outcome σ ε) (s1 : σ)
    (h : applyAll eng (callsFrom o.db stmts) o.server = .ok s1) :
    (exec eng stmts o).server = s1 ∧ (exec eng stmts o).error = o.error ∧
      (exec eng stmts o).issued = o.issued ++ callsFrom o.db stmts := by
  induction stmts generalizing o with
  | nil =>
    simp only [callsFrom, applyAll, Except.ok.injEq] at h
    simp [exec, callsFrom, h]
  | cons st rest ih =>
    cases st with
    | print m =>
      simp only [callsFrom] at h
      have := ih { o with out := o.out ++ [m] } h
      simpa [exec, callsFrom] using this
    | call c =>
      simp only [callsFrom, applyAll] at h
      cases hc : eng o.db c o.server with
      | error e => simp [hc] at h
      | ok s2 =>
        simp only [hc] at h
        have := ih { o with server := s2, db := nextDb o.db c,
                            issued := o.issued ++ [(o.db, c)] } h
        simpa [exec, callsFrom, hc] using this

/-- When the first k calls succeed and the next one throws, the run ends with
that error in the state the first k calls produced, and the issued calls are
the first k + 1. -/
theorem exec_of_first_failure (stmts : List Stmt) (o : Outcome σ ε) (k : Nat) (sk : σ)
    (hc : String × Call) (e : ε)
    (hpre : applyAll eng ((callsFrom o.db stmts).take k) o.server = .ok sk)
    (hk : (callsFrom o.db stmts)[k]? = some hc)
    (hfail : eng hc.1 hc.2 sk = .error e) :
    (exec eng stmts o).server = sk ∧ (exec eng stmts o).error = some e ∧
      (exec eng stmts o).issued = o.issued ++ (callsFrom o.db stmts).take (k + 1) := by
  induction stmts generalizing o k with
  | nil => simp [callsFrom] at hk
  | cons st rest ih =>
    cases st with
    | print m =>
      simp only [callsFrom] at hpre hk
      have := ih { o with out := o.out ++ [m] } k hpre hk
      simpa [exec, callsFrom] using this
    | call c =>
      cases k with
      | zero =>
        simp only [callsFrom, List.take_zero, applyAll, Except.ok.injEq] at hpre
        simp only [callsFrom, List.getElem?_cons_zero, Option.some.injEq] at hk
        subst hk
        subst hpre
        simp only [] at hfail
        simp [exec, callsFrom, hfail]
      | succ k =>
        simp only [callsFrom, List.take_succ_cons, applyAll] at hpre
        simp only [callsFrom, List.getElem?_cons_succ] at hk
        cases hc2 : eng o.db c o.server with
        | error e2 => simp [hc2] at hpre
        | ok s2 =>
          simp only [hc2] at hpre
          have := ih { o with server := s2, db := nextDb o.db c,
                              issued := o.issued ++ [(o.db, c)] } k hpre hk
          simpa [exec, callsFrom, hc2] using this

/-- A run that ends without error applied every call successfully. -/
theorem applyAll_of_exec_ok (stmts : List Stmt) (o : Outcome σ ε)
    (h : (exec eng stmts o).error = none) :
    applyAll eng (callsFrom o.db stmts) o.server = .ok (exec eng stmts o).server := by
  induction stmts generalizing o with
  | nil => simp [exec, callsFrom, applyAll]
  | cons st rest ih =>
    cases st with
    | print m =>
      simp only [exec] at h
      have := ih { o with out := o.out ++ [m] } h
      simpa [exec, callsFrom] using this
    | call c =>
      cases hc : eng o.db c o.server with
      | error e => simp [exec, hc] at h
      | ok s2 =>
        simp only [exec, hc] at h
        have := ih { o with server := s2, db := nextDb o.db c,
                            issued := o.issued ++ [(o.db, c)] } h
        simpa [exec, callsFrom, applyAll, hc] using this

/-- The issued calls are always an initial segment of the calls of the
statement list. -/
theorem exec_issued_take (stmts : List Stmt) (o : Outcome σ ε) :
    ∃ n, (exec eng stmts o).issued = o.issued ++ (callsFrom o.db stmts).take n := by
  induction stmts generalizing o with
  | nil => exact ⟨0, by simp [exec, callsFrom]⟩
  | cons st rest ih =>
    cases st with
    | print m =>
      obtain ⟨n, hn⟩ := ih { o with out := o.out ++ [m] }
      exact ⟨n, by simpa [exec, callsFrom] using hn⟩
    | call c =>
      cases hc : eng o.db c o.server with
      | error e => exact ⟨1, by simp [exec, callsFrom, hc]⟩
      | ok s2 =>
        obtain ⟨n, hn⟩ := ih ⟨s2, nextDb o.db c, o.out, o.issued ++ [(o.db, c)], o.error⟩
        exact ⟨n + 1, by simpa [exec, callsFrom, hc] using hn⟩

end Shell

/-! ## The script against the server model -/

theorem callsFrom_script (a : String) :
    callsFrom a script =
      (a, createAdmin) :: (a, .getSiblingDB target) :: dataCalls.map (fun c => (target, c)) := by
  rfl

theorem mongo_createAdmin (a : String) (s : Server) :
    mongo a createAdmin s =
      if userExists a "eyeglass_admin" s then .error .duplicateUser
      else .ok ⟨s.users ++ [(a, adminUser)], s.dbs⟩ := by
  rfl

theorem applyAll_cons {σ ε : Type} (eng : String → Call → σ → Except ε σ) (h : String)
    (c : Call) (rest : List (String × Call)) (s : σ) :
    applyAll eng ((h, c) :: rest) s =
      match eng h c s with
      | .error e => .error e
      | .ok s1 => applyAll eng rest s1 := by
  rfl

theorem mongo_eq_onDb (h : String) (c : Call) (s : Server)
    (hc : isCreateUser c = false) : mongo h c s = onDb h (dbStep c) s := by
  cases c with
  | createUser u p rs => simp [isCreateUser] at hc
  | getSiblingDB n => simp [mongo, onDb, dbStep]
  | createCollection n => rfl
  | createIndex c k u => rfl

/-- Calls other than createUser, all made on one handle, act on that database
alone. -/
theorem applyAll_mongo_onDb (h : String) (cs : List Call) (s : Server)
    (hcs : ∀ c ∈ cs, isCreateUser c = false) :
    applyAll mongo (cs.map (fun c => (h, c))) s =
      match applyDb cs (s.dbs h) with
      | .error e => .error e
      | .ok D => .ok ⟨s.users, Function.update s.dbs h D⟩ := by
  induction cs generalizing s with
  | nil => simp [applyAll, applyDb]
  | cons c rest ih =>
    have hc := hcs c (List.mem_cons_self c rest)
    have hrest : ∀ c1 ∈ rest, isCreateUser c1 = false :=
      fun c1 h1 => hcs c1 (List.mem_cons_of_mem c h1)
    simp only [List.map_cons, applyAll, applyDb, mongo_eq_onDb h c s hc, onDb]
    cases hd : dbStep c (s.dbs h) with
    | error e => rfl
    | ok D =>
      simp only []
      rw [ih _ hrest]
      simp only [Function.update_same]
      cases applyDb rest D with
      | error e => rfl
      | ok D1 => simp [Function.update_idem]

theorem dataCalls_not_createUser :
    ∀ c ∈ dataCalls, isCreateUser c = false := by
  decide

/-- The whole script as one computation on the server model. -/
theorem applyAll_mongo_script (a : String) (s : Server) :
    applyAll mongo (callsFrom a script) s =
      if userExists a "eyeglass_admin" s then .error .duplicateUser
      else match applyDb dataCalls (s.dbs target) with
        | .error e => .error e
        | .ok D => .ok ⟨s.users ++ [(a, adminUser)], Function.update s.dbs target D⟩ := by
  rw [callsFrom_script, applyAll_cons, mongo_createAdmin]
  by_cases hu : userExists a "eyeglass_admin" s = true
  · simp only [hu, if_true]
  · simp only [hu, Bool.false_eq_true, if_false]
    rw [applyAll_cons]
    show applyAll mongo (dataCalls.map (fun c => (target, c))) _ = _
    rw [applyAll_mongo_onDb target dataCalls _ dataCalls_not_createUser]

/-- A run that ends without error created the principal and applied the data
calls to the target database; nothing else changed. -/
theorem run_mongo_ok (a : String) (s : Server) (h : (run mongo a s).error = none) :
    userExists a "eyeglass_admin" s = false ∧
      ∃ D, applyDb dataCalls (s.dbs target) = .ok D ∧
        (run mongo a s).server =
          ⟨s.users ++ [(a, adminUser)], Function.update s.dbs target D⟩ := by
  have h1 := applyAll_of_exec_ok mongo script ⟨s, a, [], [], none⟩ h
  simp only [applyAll_mongo_script] at h1
  by_cases hu : userExists a "eyeglass_admin" s = true
  · simp [hu] at h1
  · simp only [hu, Bool.false_eq_true, if_false] at h1
    refine ⟨by simpa using hu, ?_⟩
    cases hD : applyDb dataCalls (s.dbs target) with
    | error e => simp [hD] at h1
    | ok D =>
      simp only [hD, Except.ok.injEq] at h1
      exact ⟨D, rfl, h1.symm⟩

theorem applyDb_dataCalls_nil : applyDb dataCalls [] = .ok finalDb := by
  rfl

/-- On a target database without collections a run that ends without error
leaves exactly finalDb there. -/
theorem run_mongo_empty_target (a : String) (s : Server) (h0 : s.dbs target = [])
    (h : (run mongo a s).error = none) :
    (run mongo a s).server =
      ⟨s.users ++ [(a, adminUser)], Function.update s.dbs target finalDb⟩ := by
  obtain ⟨_, D, hD, hs⟩ := run_mongo_ok a s h
  rw [h0, applyDb_dataCalls_nil] at hD
  cases hD
  exact hs

theorem insert_of_dbInsert_ok (h coll : String) (d : Document) (s : Server) (D1 : Database)
    (h1 : dbInsert coll d (s.dbs h) = .ok D1) :
    insert h coll d s = .ok ⟨s.users, Function.update s.dbs h D1⟩ := by
  simp [insert, onDb, h1]

theorem insert_of_dbInsert_error (h coll : String) (d : Document) (s : Server) (e : MongoError)
    (h1 : dbInsert coll d (s.dbs h) = .error e) :
    insert h coll d s = .error e := by
  simp [insert, onDb, h1]

/-- Two inserts into a collection of the provisioned database whose only
unique index is on one field: the second is rejected when the field agrees. -/
theorem dbInsert_twice_requests (d1 d2 : Document)
    (h : d1.lookup "request_id" = d2.lookup "request_id") :
    ∃ D1, dbInsert "requests" d1 finalDb = .ok D1 ∧
      dbInsert "requests" d2 D1 = .error .duplicateKey := by
  refine ⟨_, rfl, ?_⟩
  simp [dbInsert, ensureCollection, hasCollection, modifyColl, collInsert, finalDb, keyOf, h]

theorem dbInsert_twice_cache (d1 d2 : Document)
    (h : d1.lookup "type" = d2.lookup "type") :
    ∃ D1, dbInsert "woocommerce_cache" d1 finalDb = .ok D1 ∧
      dbInsert "woocommerce_cache" d2 D1 = .error .duplicateKey := by
  refine ⟨_, rfl, ?_⟩
  simp [dbInsert, ensureCollection, hasCollection, modifyColl, collInsert, finalDb, keyOf, h]

theorem dbInsert_twice_analysis (d1 d2 : Document) :
    ∃ D1 D2, dbInsert "analysis_results" d1 finalDb = .ok D1 ∧
      dbInsert "analysis_results" d2 D1 = .ok D2 ∧
      docsOf D2 "analysis_results" = [d1, d2] :=
  ⟨_, _, rfl, rfl, rfl⟩

/-- Lifting two successive database-level inserts to the server. -/
theorem insert_twice_lift (coll : String) (d1 d2 : Document) (s : Server) (D0 D1 : Database)
    (r : Except MongoError Database)
    (h0 : s.dbs target = D0) (h1 : dbInsert coll d1 D0 = .ok D1)
    (h2 : dbInsert coll d2 D1 = r) :
    insert target coll d1 s = .ok ⟨s.users, Function.update s.dbs target D1⟩ ∧
      insert target coll d2 ⟨s.users, Function.update s.dbs target D1⟩ =
        match r with
        | .error e => .error e
        | .ok D2 => .ok ⟨s.users, Function.update s.dbs target D2⟩ := by
  subst h0
  refine ⟨insert_of_dbInsert_ok _ _ _ _ _ h1, ?_⟩
  cases r with
  | error e =>
    exact insert_of_dbInsert_error _ _ _ _ _ (by simpa using h2)
  | ok D2 =>
    have := insert_of_dbInsert_ok target coll d2
      ⟨s.users, Function.update s.dbs target D1⟩ D2 (by simpa using h2)
    simpa [Function.update_idem] using this

theorem hasCollection_iff_mem (D : Database) (n : String) :
    hasCollection D n = true ↔ n ∈ collNames D := by
  simp only [hasCollection, collNames, List.any_eq_true, beq_iff_eq, List.mem_map]

theorem modifyColl_names (n : String) (f : Collection → Except MongoError Collection)
    (hf : ∀ c c1, f c = .ok c1 → c1.name = c.name) (D D1 : Database)
    (h : modifyColl n f D = .ok D1) : collNames D1 = collNames D := by
  induction D generalizing D1 with
  | nil =>
    simp only [modifyColl, Except.ok.injEq] at h
    subst h
    rfl
  | cons c rest ih =>
    simp only [modifyColl] at h
    by_cases hn : c.name = n
    · simp only [hn, if_true] at h
      cases hc : f c with
      | error e => simp [hc] at h
      | ok c1 =>
        simp only [hc, Except.ok.injEq] at h
        subst h
        simp [collNames, hf c c1 hc]
    · simp only [hn, if_false] at h
      cases hr : modifyColl n f rest with
      | error e => simp [hr] at h
      | ok rest1 =>
        simp only [hr, Except.ok.injEq] at h
        subst h
        have := ih rest1 hr
        simp only [collNames] at this
        simp [collNames, this]

theorem collCreateIndex_name (keys : List (String × Int)) (u : Bool) (c c1 : Collection)
    (h : collCreateIndex keys u c = .ok c1) : c1.name = c.name := by
  unfold collCreateIndex at h
  split at h
  · split at h
    · cases h; rfl
    · cases h
  · split at h
    · cases h
    · cases h; rfl

theorem dbStep_names (c : Call) (D D1 : Database) (h : dbStep c D = .ok D1) :
    collNames D1 = namesStep (collNames D) c := by
  cases c with
  | createUser u p rs => simp only [dbStep, Except.ok.injEq] at h; subst h; rfl
  | getSiblingDB n => simp only [dbStep, Except.ok.injEq] at h; subst h; rfl
  | createCollection n =>
    simp only [dbStep, dbCreateCollection] at h
    split at h
    · cases h
    · cases h
      simp [collNames, namesStep]
  | createIndex n k u =>
    simp only [dbStep, dbCreateIndex] at h
    have := modifyColl_names n _ (collCreateIndex_name k u) _ _ h
    rw [this]
    simp only [ensureCollection, namesStep]
    by_cases hn : hasCollection D n = true
    · rw [if_pos ((hasCollection_iff_mem D n).1 hn)]
      simp [hn]
    · have hm : n ∉ collNames D := fun hm => hn ((hasCollection_iff_mem D n).2 hm)
      rw [if_neg hm]
      simp [hn, collNames]

theorem applyDb_names (cs : List Call) (D D1 : Database) (h : applyDb cs D = .ok D1) :
    collNames D1 = cs.foldl namesStep (collNames D) := by
  induction cs generalizing D with
  | nil => simp only [applyDb, Except.ok.injEq] at h; subst h; rfl
  | cons c rest ih =>
    simp only [applyDb] at h
    cases hc : dbStep c D with
    | error e => simp [hc] at h
    | ok D2 =>
      simp only [hc] at h
      rw [ih D2 h, dbStep_names c D D2 hc]
      rfl

theorem dataCalls_eq :
    dataCalls = declaredCollections.map Call.createCollection ++
      indexTable.map (fun r => Call.createIndex r.coll [(r.field, r.dir)] r.unique) := by
  rfl

theorem foldl_namesStep_dataCalls (L : List String) :
    dataCalls.foldl namesStep L = L ++ declaredCollections := by
  rw [dataCalls_eq]
  simp [declaredCollections, indexTable, namesStep]

theorem indexesFollowCollections_sound (seen L : List Call)
    (h : indexesFollowCollections seen L = true) (pre post : List Call) (n : String)
    (k : List (String × Int)) (u : Bool) (hL : L = pre ++ Call.createIndex n k u :: post) :
    n ∈ declaredCollections ∧ Call.createCollection n ∈ seen ++ pre := by
  induction L generalizing seen pre with
  | nil => simp at hL
  | cons c rest ih =>
    simp only [indexesFollowCollections, Bool.and_eq_true] at h
    cases pre with
    | nil =>
      simp only [List.nil_append, List.cons.injEq] at hL
      obtain ⟨hc, _⟩ := hL
      subst hc
      simpa [indexTarget] using h.1
    | cons p pre1 =>
      simp only [List.cons_append, List.cons.injEq] at hL
      obtain ⟨hc, hrest⟩ := hL
      subst hc
      have := ih (seen ++ [c]) h.2 pre1 hrest
      exact ⟨this.1, by simpa using this.2⟩

/-! ## The claims -/

/-- C1: on a server whose target database has no collections, a run of the
whole script that completes leaves exactly the four collections requests,
analysis_results, recommendations, woocommerce_cache in the target database
(in that order, with a collection present iff it is one of the four) and
leaves the collections of every other database as they were. -/
theorem provisioned_collections_exact (a : String) (s : Server)
    (hempty : s.dbs target = [])
    (hrun : (run mongo a s).error = none) :
    collNames ((run mongo a s).server.dbs target)
        = ["requests", "analysis_results", "recommendations", "woocommerce_cache"] ∧
      (∀ n, hasCollection ((run mongo a s).server.dbs target) n = true ↔
        n ∈ declaredCollections) ∧
      (∀ d, d ≠ target → (run mongo a s).server.dbs d = s.dbs d) := by
  rw [run_mongo_empty_target a s hempty hrun]
  refine ⟨by simp [finalDb, collNames], ?_, ?_⟩
  · intro n
    simp only [Function.update_same, hasCollection, finalDb, declaredCollections, List.any_cons,
      List.any_nil, Bool.or_false, Bool.or_eq_true, beq_iff_eq, List.mem_cons, List.mem_singleton,
      List.not_mem_nil, or_false, or_assoc]
    constructor <;> (rintro (rfl | rfl | rfl | rfl) <;> simp)
  · intro d hd
    simp [Function.update_noteq hd]

theorem provisioned_collections_exact_witness :
    emptyServer.dbs target = [] ∧ (run mongo "test" emptyServer).error = none ∧
      collNames ((run mongo "test" emptyServer).server.dbs target)
        = ["requests", "analysis_results", "recommendations", "woocommerce_cache"] ∧
      (run mongo "test" emptyServer).server.dbs "test" = [] :=
  ⟨rfl, rfl, (provisioned_collections_exact "test" emptyServer rfl rfl).1,
    (provisioned_collections_exact "test" emptyServer rfl rfl).2.2 "test" (by decide)⟩

/-- C2: after a completed run on a server whose target database is empty, the
secondary indexes of the target database are exactly the eighteen rows of the
index table, each a single-field index on the stated collection with the
stated field, direction and uniqueness flag; direction is -1 exactly for
analysis_results.confidence and recommendations.recommended_frames.match_score,
unique holds exactly for requests.request_id and woocommerce_cache.type, the
eighteen (collection, field) pairs are pairwise distinct, and the indexes of
every other database are untouched. -/
theorem provisioned_indexes_exact (a : String) (s : Server)
    (hempty : s.dbs target = [])
    (hrun : (run mongo a s).error = none) :
    indexesOf ((run mongo a s).server.dbs target) = indexTable.map rowIndex ∧
      indexTable.length = 18 ∧
      (indexTable.map (fun r => (r.coll, r.field))).Nodup ∧
      (∀ r ∈ indexTable, r.dir = -1 ↔
        (r.coll, r.field) = ("analysis_results", "confidence") ∨
        (r.coll, r.field) = ("recommendations", "recommended_frames.match_score")) ∧
      (∀ r ∈ indexTable, r.dir = 1 ∨ r.dir = -1) ∧
      (∀ r ∈ indexTable, r.unique = true ↔
        (r.coll, r.field) = ("requests", "request_id") ∨
        (r.coll, r.field) = ("woocommerce_cache", "type")) ∧
      (∀ d, d ≠ target →
        indexesOf ((run mongo a s).server.dbs d) = indexesOf (s.dbs d)) := by
  rw [run_mongo_empty_target a s hempty hrun]
  refine ⟨by simp only [Function.update_same]; rfl, rfl, by decide, by decide, by decide,
    by decide, ?_⟩
  intro d hd
  simp [Function.update_noteq hd]

theorem provisioned_indexes_exact_witness :
    emptyServer.dbs target = [] ∧ (run mongo "test" emptyServer).error = none ∧
      indexesOf ((run mongo "test" emptyServer).server.dbs target)
        = indexTable.map rowIndex :=
  ⟨rfl, rfl, (provisioned_indexes_exact "test" emptyServer rfl rfl).1⟩

/-- C3: after a completed run the principals of the server are the earlier
ones followed by exactly one new principal, eyeglass_admin, created in the
ambient database, whose grants are exactly readWrite and dbAdmin, both on
eyeglass_recommendation; it has two grants and none on another database. -/
theorem admin_principal_exact (a : String) (s : Server)
    (hrun : (run mongo a s).error = none) :
    (run mongo a s).server.users = s.users ++ [(a, adminUser)] ∧
      adminUser.user = "eyeglass_admin" ∧
      adminUser.roles = [⟨"readWrite", "eyeglass_recommendation"⟩,
        ⟨"dbAdmin", "eyeglass_recommendation"⟩] ∧
      adminUser.roles.length = 2 ∧
      (∀ r ∈ adminUser.roles, r.db = "eyeglass_recommendation") := by
  obtain ⟨_, D, _, hs⟩ := run_mongo_ok a s hrun
  rw [hs]
  exact ⟨rfl, rfl, rfl, rfl, by decide⟩

theorem admin_principal_exact_witness :
    (run mongo "test" emptyServer).error = none ∧
      (run mongo "test" emptyServer).server.users = [("test", adminUser)] :=
  ⟨rfl, (admin_principal_exact "test" emptyServer rfl).1⟩

/-- C4: in the state a completed run leaves on an empty target database, for
all documents d1 and d2 that agree on request_id the insert of d1 into
requests succeeds and the following insert of d2 is rejected with a duplicate
key error; likewise for woocommerce_cache and documents that agree on type.
(An insert is rejected iff a unique index of the collection already holds the
key value of the document, see collInsert; two documents that both lack the
field agree on it.) -/
theorem unique_indexes_reject_second_insert (a : String) (s : Server)
    (hempty : s.dbs target = [])
    (hrun : (run mongo a s).error = none) (d1 d2 : Document) :
    (d1.lookup "request_id" = d2.lookup "request_id" →
      ∃ s1, insert target "requests" d1 (run mongo a s).server = .ok s1 ∧
        insert target "requests" d2 s1 = .error .duplicateKey) ∧
    (d1.lookup "type" = d2.lookup "type" →
      ∃ s1, insert target "woocommerce_cache" d1 (run mongo a s).server = .ok s1 ∧
        insert target "woocommerce_cache" d2 s1 = .error .duplicateKey) := by
  rw [run_mongo_empty_target a s hempty hrun]
  constructor
  · intro h
    obtain ⟨D1, h1, h2⟩ := dbInsert_twice_requests d1 d2 h
    have := insert_twice_lift "requests" d1 d2
      ⟨s.users ++ [(a, adminUser)], Function.update s.dbs target finalDb⟩ finalDb D1 _
      (by simp) h1 h2
    exact ⟨_, this.1, this.2⟩
  · intro h
    obtain ⟨D1, h1, h2⟩ := dbInsert_twice_cache d1 d2 h
    have := insert_twice_lift "woocommerce_cache" d1 d2
      ⟨s.users ++ [(a, adminUser)], Function.update s.dbs target finalDb⟩ finalDb D1 _
      (by simp) h1 h2
    exact ⟨_, this.1, this.2⟩

theorem unique_indexes_reject_second_insert_witness :
    emptyServer.dbs target = [] ∧ (run mongo "test" emptyServer).error = none ∧
      (∃ s1, insert target "requests" [("request_id", .str "r1"), ("status_code", .int 200)]
          (run mongo "test" emptyServer).server = .ok s1 ∧
        insert target "requests" [("request_id", .str "r1"), ("status_code", .int 500)] s1
          = .error .duplicateKey) ∧
      (∃ s1, insert target "woocommerce_cache" [("type", .str "products")]
          (run mongo "test" emptyServer).server = .ok s1 ∧
        insert target "woocommerce_cache" [("type", .str "products"), ("last_update", .int 7)] s1
          = .error .duplicateKey) :=
  ⟨rfl, rfl,
    (unique_indexes_reject_second_insert "test" emptyServer rfl rfl
      [("request_id", .str "r1"), ("status_code", .int 200)]
      [("request_id", .str "r1"), ("status_code", .int 500)]).1 (by decide),
    (unique_indexes_reject_second_insert "test" emptyServer rfl rfl
      [("type", .str "products")]
      [("type", .str "products"), ("last_update", .int 7)]).2 (by decide)⟩

/-- C5: in the state a completed run leaves on an empty target database, the
indexes on analysis_results are the five on user_id, request_id, face_shape,
created_at and confidence, none of them unique, and for all documents d1 and
d2 (whatever their fields, so in particular when they share user_id) the
insert of d1 into analysis_results and then of d2 both succeed, after which
the collection holds both. -/
theorem analysis_results_accepts_equal_user_id (a : String) (s : Server)
    (hempty : s.dbs target = [])
    (hrun : (run mongo a s).error = none) (d1 d2 : Document) :
    ((indexesOf ((run mongo a s).server.dbs target)).filter
        (fun e => e.1 == "analysis_results")).map (fun e => (e.2.keys.map Prod.fst, e.2.unique))
      = [(["user_id"], false), (["request_id"], false), (["face_shape"], false),
          (["created_at"], false), (["confidence"], false)] ∧
    ∃ s1 s2, insert target "analysis_results" d1 (run mongo a s).server = .ok s1 ∧
      insert target "analysis_results" d2 s1 = .ok s2 ∧
      docsOf (s2.dbs target) "analysis_results" = [d1, d2] := by
  rw [run_mongo_empty_target a s hempty hrun]
  refine ⟨by simp only [Function.update_same]; rfl, ?_⟩
  obtain ⟨D1, D2, h1, h2, h3⟩ := dbInsert_twice_analysis d1 d2
  have := insert_twice_lift "analysis_results" d1 d2
    ⟨s.users ++ [(a, adminUser)], Function.update s.dbs target finalDb⟩ finalDb D1 _
    (by simp) h1 h2
  exact ⟨_, _, this.1, this.2, by simpa using h3⟩

theorem analysis_results_accepts_equal_user_id_witness :
    emptyServer.dbs target = [] ∧ (run mongo "test" emptyServer).error = none ∧
      ∃ s1 s2, insert target "analysis_results" [("user_id", .str "u1"), ("confidence", .int 90)]
          (run mongo "test" emptyServer).server = .ok s1 ∧
        insert target "analysis_results" [("user_id", .str "u1"), ("confidence", .int 40)] s1
          = .ok s2 ∧
        docsOf (s2.dbs target) "analysis_results"
          = [[("user_id", .str "u1"), ("confidence", .int 90)],
             [("user_id", .str "u1"), ("confidence", .int 40)]] :=
  ⟨rfl, rfl,
    (analysis_results_accepts_equal_user_id "test" emptyServer rfl rfl
      [("user_id", .str "u1"), ("confidence", .int 90)]
      [("user_id", .str "u1"), ("confidence", .int 40)]).2⟩

/-- C6: the script aborts on the first failing call with no rollback.  It has
24 database calls (1 createUser, 1 getSiblingDB, 4 createCollection,
18 createIndex).  For every engine and start state: if the first k calls
succeed in turn, leaving state sk, and call k + 1 throws e, then the run ends
with error e, the server state is sk (the effects of the earlier calls, as
applied), and the issued calls are exactly the first k + 1, so none of the
later ones is issued; and the run ends without error iff all 24 calls succeed
in turn, in which case all 24 were issued and the state is their result. -/
theorem abort_on_first_failure {σ ε : Type} (eng : String → Call → σ → Except ε σ)
    (a : String) (s : σ) :
    ((callsFrom a script).length = 24 ∧
      ((callsFrom a script).map Prod.snd).countP isCreateUser = 1 ∧
      ((callsFrom a script).map Prod.snd).countP isGetSiblingDB = 1 ∧
      ((callsFrom a script).map Prod.snd).countP isCreateCollection = 4 ∧
      ((callsFrom a script).map Prod.snd).countP isCreateIndex = 18) ∧
    (∀ (k : Nat) (sk : σ) (hc : String × Call) (e : ε),
      applyAll eng ((callsFrom a script).take k) s = .ok sk →
      (callsFrom a script)[k]? = some hc →
      eng hc.1 hc.2 sk = .error e →
        (run eng a s).error = some e ∧ (run eng a s).server = sk ∧
        (run eng a s).issued = (callsFrom a script).take (k + 1)) ∧
    ((run eng a s).error = none ↔ ∃ s1, applyAll eng (callsFrom a script) s = .ok s1) ∧
    (∀ s1, applyAll eng (callsFrom a script) s = .ok s1 →
      (run eng a s).server = s1 ∧ (run eng a s).issued = callsFrom a script) := by
  refine ⟨⟨rfl, rfl, rfl, rfl, rfl⟩, ?_, ?_, ?_⟩
  · intro k sk hc e hpre hk hfail
    have := exec_of_first_failure eng script ⟨s, a, [], [], none⟩ k sk hc e hpre hk hfail
    exact ⟨this.2.1, this.1, by simpa using this.2.2⟩
  · constructor
    · intro h
      exact ⟨_, applyAll_of_exec_ok eng script ⟨s, a, [], [], none⟩ h⟩
    · rintro ⟨s1, h1⟩
      exact (exec_of_applyAll_ok eng script ⟨s, a, [], [], none⟩ s1 h1).2.1
  · intro s1 h1
    have := exec_of_applyAll_ok eng script ⟨s, a, [], [], none⟩ s1 h1
    exact ⟨this.1, by simpa using this.2.2⟩

theorem abort_on_first_failure_witness :
    (run mongo "test" recommendationsOnly).error = some .namespaceExists ∧
      collNames ((run mongo "test" recommendationsOnly).server.dbs target)
        = ["recommendations", "requests", "analysis_results"] ∧
      (run mongo "test" recommendationsOnly).server.users = [("test", adminUser)] ∧
      (run mongo "test" recommendationsOnly).issued = (callsFrom "test" script).take 5 := by
  have h := (abort_on_first_failure mongo "test" recommendationsOnly).2.1 4
    ⟨[("test", adminUser)], Function.update
      (Function.update recommendationsOnly.dbs target
        [⟨"recommendations", [], []⟩, ⟨"requests", [], []⟩]) target
      [⟨"recommendations", [], []⟩, ⟨"requests", [], []⟩, ⟨"analysis_results", [], []⟩]⟩
    (target, .createCollection "recommendations") .namespaceExists rfl rfl rfl
  exact ⟨h.1, by rw [h.2.1]; rfl, by rw [h.2.1], h.2.2⟩

/-- C7: a second run of the script (by a shell connected to the same ambient
database) on the state left by a completed first run fails at the
duplicate-user step: createUser is the first database call, it
is rejected because eyeglass_admin exists in the ambient database, it is the
only call issued (no collection or index call follows), and the server state
after the second run is the state after the first. -/
theorem rerun_fails_at_duplicate_user (a : String) (s : Server)
    (hrun : (run mongo a s).error = none) :
    (callsFrom a script).head? = some (a, createAdmin) ∧
      (run mongo a (run mongo a s).server).error = some .duplicateUser ∧
      (run mongo a (run mongo a s).server).issued = [(a, createAdmin)] ∧
      (run mongo a (run mongo a s).server).server = (run mongo a s).server := by
  obtain ⟨_, D, _, hs⟩ := run_mongo_ok a s hrun
  have hu : userExists a "eyeglass_admin" (run mongo a s).server = true := by
    rw [hs]
    simp [userExists, adminUser]
  have hfail : mongo a createAdmin (run mongo a s).server = .error .duplicateUser := by
    rw [mongo_createAdmin, hu]
    rfl
  have := exec_of_first_failure mongo script ⟨(run mongo a s).server, a, [], [], none⟩ 0
    (run mongo a s).server (a, createAdmin) .duplicateUser rfl rfl hfail
  exact ⟨rfl, this.2.1, by simpa using this.2.2, this.1⟩

theorem rerun_fails_at_duplicate_user_witness :
    (run mongo "test" emptyServer).error = none ∧
      (run mongo "test" (run mongo "test" emptyServer).server).error = some .duplicateUser ∧
      (run mongo "test" (run mongo "test" emptyServer).server).issued
        = [("test", createAdmin)] :=
  ⟨rfl, (rerun_fails_at_duplicate_user "test" emptyServer rfl).2.1,
    (rerun_fails_at_duplicate_user "test" emptyServer rfl).2.2.1⟩

/-- C9: the script issues its database calls in exactly this order: createUser
on the ambient handle, then the switch to eyeglass_recommendation (also on the
ambient handle), then on the eyeglass_recommendation handle the four
createCollection calls in the order requests, analysis_results,
recommendations, woocommerce_cache, then the eighteen createIndex calls in
table order, grouped by collection in that same order.  Against every engine
the issued calls are an initial segment of this list, and the whole list when
the run ends without error; no createIndex call comes before a
createCollection call. -/
theorem calls_issued_in_source_order {σ ε : Type} (eng : String → Call → σ → Except ε σ)
    (a : String) (s : σ) :
    callsFrom a script =
        (a, .createUser "eyeglass_admin" "secure_password123"
          [⟨"readWrite", "eyeglass_recommendation"⟩, ⟨"dbAdmin", "eyeglass_recommendation"⟩])
        :: (a, .getSiblingDB "eyeglass_recommendation")
        :: (declaredCollections.map (fun n => ("eyeglass_recommendation", Call.createCollection n))
          ++ indexTable.map (fun r =>
            ("eyeglass_recommendation", Call.createIndex r.coll [(r.field, r.dir)] r.unique))) ∧
      indexTable.map (fun r => r.coll) =
        List.replicate 6 "requests" ++ List.replicate 5 "analysis_results" ++
          List.replicate 5 "recommendations" ++ List.replicate 2 "woocommerce_cache" ∧
      (callsFrom a script).map Prod.fst = a :: a :: List.replicate 22 "eyeglass_recommendation" ∧
      (∃ n, (run eng a s).issued = (callsFrom a script).take n) ∧
      ((run eng a s).error = none → (run eng a s).issued = callsFrom a script) ∧
      List.Pairwise (fun c1 c2 => ¬ (isCreateIndex c1 = true ∧ isCreateCollection c2 = true))
        ((callsFrom a script).map Prod.snd) := by
  refine ⟨rfl, rfl, rfl, ?_, ?_, ?_⟩
  · obtain ⟨n, hn⟩ := exec_issued_take eng script ⟨s, a, [], [], none⟩
    exact ⟨n, by simpa using hn⟩
  · intro h
    have h1 := applyAll_of_exec_ok eng script ⟨s, a, [], [], none⟩ h
    have h2 := exec_of_applyAll_ok eng script ⟨s, a, [], [], none⟩ _ h1
    simpa using h2.2.2
  · show List.Pairwise _ scriptCalls
    decide

theorem calls_issued_in_source_order_witness :
    (run mongo "test" emptyServer).error = none ∧
      (run mongo "test" emptyServer).issued = callsFrom "test" script ∧
      (run mongo "test" emptyServer).issued.length = 24 :=
  ⟨rfl, (calls_issued_in_source_order mongo "test" emptyServer).2.2.2.2.1 rfl, rfl⟩

/-- C10: every createIndex call of the script is made on one of the four
declared collections, and the createCollection call for that collection
occurs earlier in the script; the createCollection calls name exactly the four
declared collections; the four collections receive 6, 5, 5 and 2 indexes.
Hence a run that ends without error adds exactly the four declared names to
the collections of the target database, whatever it held before: no
createIndex call creates a further collection. -/
theorem index_targets_are_declared :
    (∀ (pre post : List Call) (n : String) (k : List (String × Int)) (u : Bool),
      scriptCalls = pre ++ Call.createIndex n k u :: post →
        n ∈ declaredCollections ∧ Call.createCollection n ∈ pre) ∧
      scriptCalls.filterMap collectionTarget = declaredCollections ∧
      (scriptCalls.filterMap indexTarget).length = 18 ∧
      (scriptCalls.filterMap indexTarget).count "requests" = 6 ∧
      (scriptCalls.filterMap indexTarget).count "analysis_results" = 5 ∧
      (scriptCalls.filterMap indexTarget).count "recommendations" = 5 ∧
      (scriptCalls.filterMap indexTarget).count "woocommerce_cache" = 2 ∧
      (∀ (a : String) (s : Server), (run mongo a s).error = none →
        collNames ((run mongo a s).server.dbs target)
          = collNames (s.dbs target) ++ declaredCollections) := by
  refine ⟨?_, rfl, rfl, by decide, by decide, by decide, by decide, ?_⟩
  · intro pre post n k u hL
    have h : indexesFollowCollections [] scriptCalls = true := by decide
    simpa using indexesFollowCollections_sound [] scriptCalls h pre post n k u hL
  · intro a s hrun
    obtain ⟨_, D, hD, hs⟩ := run_mongo_ok a s hrun
    rw [hs]
    simp only [Function.update_same]
    rw [applyDb_names dataCalls _ D hD, foldl_namesStep_dataCalls]

theorem index_targets_are_declared_witness :
    (run mongo "test" emptyServer).error = none ∧
      collNames ((run mongo "test" emptyServer).server.dbs target) = declaredCollections ∧
      Call.createCollection "woocommerce_cache" ∈ scriptCalls.take 22 :=
  ⟨rfl, index_targets_are_declared.2.2.2.2.2.2.2 "test" emptyServer rfl,
    (index_targets_are_declared.1 (scriptCalls.take 22) (scriptCalls.drop 23) "woocommerce_cache"
      [("type", 1)] true (by decide)).2⟩

end MongoInit
